import Mathlib

/-!
# Real-time side of the wallet server

A shallow embedding of the two background producers started by `main`
(`apps/server/main.go`): the goroutine that relays node block callbacks to
subscribed websocket clients, and the cron job that pushes prices to every
connected client; of the configuration checks `main` performs before serving;
and of `HttpController.DecodeBaseRequestWithCount`
(`apps/server/controller/common_c.go`).

Calls that leave the program (logging, `Hub.BroadcastToClient`, the socket.io
broadcast) are recorded, in program order, as a list of `Effect`s.  Library
functions (`json.Marshal`, `strconv.ParseFloat`, `strings.ToLower`, the redis
`Hget`, `mapstructure.Decode`, `utils.ToInt`, `utils.GetEnv`) are arguments of
the embedded functions.
-/

namespace Pippin

/-! ## Data model -/

/-- The fields of `net.WSCallbackBlock` that `main` reads. -/
structure WSCallbackBlock where
  Subtype : String
  LinkAsAccount : String
deriving DecidableEq, Repr

/-- The message type carried by `callbackChan`. -/
structure WSCallbackMsg where
  Account : String
  Hash : String
  Amount : String
  Block : WSCallbackBlock
deriving DecidableEq, Repr

/-- A websocket client as `main` sees it.  `ptr` stands for the `*Client`
pointer that keys `wsHub.Clients`; `Accounts` is ranged over with
`for _, account := range`, so it is a sequence of strings. -/
structure Client where
  ptr : Nat
  Accounts : List String
  Currency : String
deriving DecidableEq, Repr

/-- The map literal `callbackMsg` built by the relay goroutine. -/
structure CallbackPayload where
  account : String
  block : WSCallbackBlock
  hash : String
  is_send : String
  amount : String
deriving DecidableEq, Repr

/-- The struct `models.PriceMessage`; `NanoPrice` is a pointer field. -/
structure PriceMessage (F : Type) where
  Currency : String
  Price : F
  BtcPrice : F
  NanoPrice : Option F
deriving DecidableEq, Repr

/-- What the producers do to the outside world; `B` is the type of a
serialized payload. -/
inductive Effect (B : Type) where
  | logError (text : String)
  | broadcastToClient (client : Nat) (payload : B)
  | sioBroadcast (ns : String) (event : String) (amount : String)
deriving DecidableEq, Repr

/-- The payloads handed to `Hub.BroadcastToClient` for the client `ptr`, in
program order. -/
def deliveries {B : Type} (ptr : Nat) : List (Effect B) → List B
  | [] => []
  | Effect.broadcastToClient c p :: es =>
      if c = ptr then p :: deliveries ptr es else deliveries ptr es
  | _ :: es => deliveries ptr es

/-- The amounts broadcast as `donation_event` on namespace `/`. -/
def donations {B : Type} : List (Effect B) → List String
  | [] => []
  | Effect.sioBroadcast ns ev amount :: es =>
      if ns = "/" ∧ ev = "donation_event" then amount :: donations es else donations es
  | _ :: es => donations es

/-- Whether an effect is a call of `Hub.BroadcastToClient`. -/
def Effect.isBroadcast {B : Type} : Effect B → Bool
  | Effect.broadcastToClient _ _ => true
  | _ => false

/-! ## Blockchain event relay (`main`, goroutine over `callbackChan`) -/

/-- The account compared against in the socket.io branch. -/
def donationAccount : String :=
  "nano_1natrium1o3z5519ifou7xii8crpxpk8y65qmkih8e8bpsjri651oza8imdd"

/-- The `callbackMsg` map built for one message. -/
def callbackMsg (msg : WSCallbackMsg) : CallbackPayload :=
  { account := msg.Account, block := msg.Block, hash := msg.Hash,
    is_send := "true", amount := msg.Amount }

/-- Inner loop `for _, account := range client.Accounts`. -/
def notifyAccounts {B : Type} (client : Client) (link : String) (serialized : B) :
    List String → List (Effect B)
  | [] => []
  | account :: rest =>
      if account = link then
        Effect.broadcastToClient client.ptr serialized ::
          notifyAccounts client link serialized rest
      else notifyAccounts client link serialized rest

/-- Outer loop `for client, _ := range wsHub.Clients`; the list is the order
in which the map happens to be traversed. -/
def notifyClients {B : Type} (link : String) (serialized : B) :
    List Client → List (Effect B)
  | [] => []
  | client :: rest =>
      notifyAccounts client link serialized client.Accounts ++
        notifyClients link serialized rest

/-- The socket.io branch at the end of the loop body; `sio` tells whether the
socket.io server was created (`sio != nil`). -/
def sioBranch {B : Type} (sio : Bool) (msg : WSCallbackMsg) : List (Effect B) :=
  if sio then
    if msg.Block.LinkAsAccount = donationAccount ∧ msg.Block.Subtype = "send"
        ∧ msg.Amount ≠ "" then
      [Effect.sioBroadcast "/" "donation_event" msg.Amount]
    else []
  else []

/-- One iteration of `for msg := range callbackChan`. -/
def relayEvent {B : Type} (marshal : CallbackPayload → Except String B) (sio : Bool)
    (clients : List Client) (msg : WSCallbackMsg) : List (Effect B) :=
  if msg.Block.Subtype ≠ "send" then []
  else
    match marshal (callbackMsg msg) with
    | Except.error err => [Effect.logError ("Error serializing callback message: " ++ err)]
    | Except.ok serialized =>
        notifyClients msg.Block.LinkAsAccount serialized clients ++ sioBranch sio msg

/-- The relay loop over the messages received on `callbackChan`, each paired
with the clients in `wsHub.Clients` at the time it is processed. -/
def relayLoop {B : Type} (marshal : CallbackPayload → Except String B) (sio : Bool) :
    List (List Client × WSCallbackMsg) → List (Effect B)
  | [] => []
  | (clients, msg) :: rest =>
      relayEvent marshal sio clients msg ++ relayLoop marshal sio rest

/-! ## Price broadcast job (`main`, function passed to the scheduler) -/

/-- The library calls the price job depends on.  `hget key field` is one read
of the redis hash; `parseFloat` returns the value and the error of
`strconv.ParseFloat`, both of them as Go does. -/
structure PriceDeps (F B : Type) where
  hget : String → String → Except String String
  parseFloat : String → F × Option String
  toLower : String → String
  marshal : PriceMessage F → Except String B

/-- The controller's `pricePrefix`. -/
def pricePrefix (bananoMode : Bool) : String :=
  if bananoMode then "banano" else "nano"

/-- The result of `fmt.Sprintf("coingecko:%s-%s", pricePrefix, suffix)`. -/
def priceKey (bananoMode : Bool) (suffix : String) : String :=
  "coingecko:" ++ pricePrefix bananoMode ++ "-" ++ suffix

/-- The loop `for client, _ := range wsHub.Clients` of the price job. -/
def priceClients {F B : Type} (d : PriceDeps F B) (bananoMode : Bool)
    (btcPriceFloat nanoPriceFloat : F) : List Client → List (Effect B)
  | [] => []
  | client :: rest =>
      let currency := client.Currency
      match d.hget "prices" (priceKey bananoMode (d.toLower currency)) with
      | Except.error err =>
          Effect.logError ("Error getting " ++ currency ++ " price in cron: " ++ err) ::
            priceClients d bananoMode btcPriceFloat nanoPriceFloat rest
      | Except.ok curStr =>
          match d.parseFloat curStr with
          | (_, some err) =>
              Effect.logError ("Error parsing " ++ currency ++ " price in cron: " ++ err) ::
                priceClients d bananoMode btcPriceFloat nanoPriceFloat rest
          | (curFloat, none) =>
              let priceMessage : PriceMessage F :=
                { Currency := currency, Price := curFloat, BtcPrice := btcPriceFloat,
                  NanoPrice := if bananoMode then some nanoPriceFloat else none }
              match d.marshal priceMessage with
              | Except.error err =>
                  Effect.logError ("Error serializing price message: " ++ err) ::
                    priceClients d bananoMode btcPriceFloat nanoPriceFloat rest
              | Except.ok serialized =>
                  Effect.broadcastToClient client.ptr serialized ::
                    priceClients d bananoMode btcPriceFloat nanoPriceFloat rest

/-- One run of the scheduled job.  `zero` is the zero value of `float64`, the
initial value of `nanoPriceFloat`. -/
def priceJob {F B : Type} (d : PriceDeps F B) (zero : F) (bananoMode : Bool)
    (clients : List Client) : List (Effect B) :=
  match d.hget "prices" (priceKey bananoMode "btc") with
  | Except.error err => [Effect.logError ("Error getting btc price in cron: " ++ err)]
  | Except.ok btcPrice =>
      match d.parseFloat btcPrice with
      | (_, some err) => [Effect.logError ("Error parsing btc price in cron: " ++ err)]
      | (btcPriceFloat, none) =>
          if bananoMode then
            match d.hget "prices" (priceKey bananoMode "nano") with
            | Except.error err =>
                [Effect.logError ("Error getting nano price in cron: " ++ err)]
            | Except.ok nanoPriceStr =>
                priceClients d bananoMode btcPriceFloat (d.parseFloat nanoPriceStr).1 clients
          else priceClients d bananoMode btcPriceFloat zero clients

/-! ## Startup (`main`, up to `http.ListenAndServe`) -/

/-- What startup depends on besides the environment variables: whether
`flag.Parse` accepts the command line, the `-version` flag, whether
`database.NewConnection` and `fcm.NewClient` return without an error. -/
structure StartupInput where
  flagsParse : Bool
  version : Bool
  dbConnects : Bool
  fcmClientOk : Bool
deriving DecidableEq, Repr

/-- How startup ends: one of the exits and panics of `main`, or the server
listening, with the URL handed to `net.StartNanoWSClient` when that goroutine
was started. -/
inductive StartupOutcome where
  | exit (code : Nat)
  | panicDatabase
  | panicText (text : String)
  | serving (nodeWsClient : Option String)
deriving DecidableEq, Repr

/-- The path of `main` from the flags to `http.ListenAndServe`; `getEnv` is
`utils.GetEnv`.  A command line that `flag.Parse` rejects (or `-h`) runs
`usage`, which ends in `os.Exit(2)`.  Calls whose result `main` does not
inspect (`database.Migrate`, the set-up of the router and of the hub) are taken
to return. -/
def startup (getEnv : String → String → String) (inp : StartupInput) : StartupOutcome :=
  if !inp.flagsParse then StartupOutcome.exit 2
  else if inp.version then StartupOutcome.exit 0
  else if !inp.dbConnects then StartupOutcome.panicDatabase
  else if getEnv "WORK_URL" "" = "" ∧ getEnv "BPOW_KEY" "" = "" then
    StartupOutcome.panicText "Either WORK_URL or BPOW_KEY must be set for work generation"
  else if getEnv "FCM_API_KEY" "" ≠ "" ∧ !inp.fcmClientOk then StartupOutcome.exit 1
  else
    StartupOutcome.serving
      (if getEnv "NODE_WS_URL" "" ≠ "" then some (getEnv "NODE_WS_URL" "") else none)

/-- Whether startup ended fatally (a panic or a non-zero exit). -/
def StartupOutcome.isFatal : StartupOutcome → Bool
  | StartupOutcome.exit code => code != 0
  | StartupOutcome.panicDatabase => true
  | StartupOutcome.panicText _ => true
  | StartupOutcome.serving _ => false

/-- Whether startup reached `http.ListenAndServe`. -/
def StartupOutcome.isServing : StartupOutcome → Bool
  | StartupOutcome.serving _ => true
  | _ => false

/-! ## `HttpController.DecodeBaseRequestWithCount` -/

/-- The struct `requests.BaseRequestWithCount`; `Count` is a pointer field. -/
structure BaseRequestWithCount (K : Type) where
  Wallet : String
  Action : String
  Count : Option K
deriving DecidableEq, Repr

/-- What the decoder does besides returning. -/
inductive HttpEffect where
  | logError (text : String)
  | errUnableToParseJson
deriving DecidableEq, Repr

/-- The two return values of the decoder and what it wrote. -/
structure DecodeResult (K : Type) where
  request : Option (BaseRequestWithCount K)
  count : Int
  effects : List HttpEffect

/-- The decoder; `decode` is `mapstructure.Decode` into a fresh struct and
`toInt` returns the value and the error of `utils.ToInt`. -/
def DecodeBaseRequestWithCount {R K : Type}
    (decode : R → Except String (BaseRequestWithCount K))
    (toInt : K → Int × Option String) (request : R) : DecodeResult K :=
  match decode request with
  | Except.error err =>
      { request := none, count := 0,
        effects := [HttpEffect.logError ("Error unmarshalling request with count " ++ err),
                    HttpEffect.errUnableToParseJson] }
  | Except.ok baseRequest =>
      if baseRequest.Wallet = "" ∨ baseRequest.Action = "" then
        { request := none, count := 0, effects := [HttpEffect.errUnableToParseJson] }
      else
        match baseRequest.Count with
        | none => { request := some baseRequest, count := 0, effects := [] }
        | some c =>
            match toInt c with
            | (count, err) =>
                if err ≠ none ∨ count < 1 then
                  { request := none, count := 0, effects := [HttpEffect.errUnableToParseJson] }
                else
                  { request := some baseRequest,
                    count := if count < 1 then 1 else count, effects := [] }

/-! ## Concrete library instances used in the worked scenarios -/

/-- A serializer for `callbackMsg`; every field of the payload is a string, so
it never fails: it returns the payload itself. -/
def marshalCallback (p : CallbackPayload) : Except String CallbackPayload :=
  Except.ok p

/-- The first client of the worked scenario: watches `nano_1abc`, shows USD. -/
def clientUsd : Client := ⟨1, ["nano_1abc"], "USD"⟩

/-- The second client of the worked scenario: watches `nano_1xyz`, shows EUR. -/
def clientEur : Client := ⟨2, ["nano_1xyz"], "EUR"⟩

/-- A client whose `Accounts` holds the same account twice. -/
def clientTwice : Client := ⟨3, ["nano_1abc", "nano_1abc"], "USD"⟩

/-- A "send" of amount 100 to `nano_1abc`. -/
def sendEvent : WSCallbackMsg := ⟨"nano_3src", "HASH1", "100", ⟨"send", "nano_1abc"⟩⟩

/-- A decimal number, `mantissa / 10 ^ scale`. -/
structure Decimal where
  mantissa : Nat
  scale : Nat
deriving DecidableEq, Repr

/-- A small stand-in for `float64` in the worked scenarios: plain decimals
and NaN. -/
inductive Number where
  | dec (d : Decimal)
  | nan
deriving DecidableEq, Repr

/-- The value of a run of decimal digits, most significant first. -/
def readDigits : List Char → Nat → Option Nat
  | [], acc => some acc
  | c :: cs, acc =>
      if c.isDigit then readDigits cs (acc * 10 + (c.toNat - '0'.toNat)) else none

/-- Reads `digits` or `digits.digits`. -/
def readDecimal (cs : List Char) : Option Decimal :=
  let whole := cs.takeWhile (fun c => c != '.')
  match cs.dropWhile (fun c => c != '.') with
  | [] => if whole = [] then none else (readDigits whole 0).map (fun m => ⟨m, 0⟩)
  | _ :: frac =>
      if whole = [] ∨ frac = [] then none
      else (readDigits (whole ++ frac) 0).map (fun m => ⟨m, frac.length⟩)

/-- The part of `strconv.ParseFloat` the scenarios need: "NaN" parses to NaN
without an error, a plain decimal to its value, and anything else is reported
as a syntax error with value zero. -/
def parseNumber (s : String) : Number × Option String :=
  if s = "NaN" then (Number.nan, none)
  else
    match readDecimal s.data with
    | some d => (Number.dec d, none)
    | none => (Number.dec ⟨0, 0⟩, some "invalid syntax")

/-- The part of `json.Marshal` on a price message the scenarios need: NaN is
an unsupported value, everything else serializes; the payload is the message
itself. -/
def marshalPrice (m : PriceMessage Number) : Except String (PriceMessage Number) :=
  if m.Price = Number.nan ∨ m.BtcPrice = Number.nan ∨ m.NanoPrice = some Number.nan then
    Except.error "json: unsupported value: NaN"
  else Except.ok m

/-- Lower-casing of ASCII letters. -/
def asciiLower (s : String) : String :=
  String.mk (s.data.map Char.toLower)

/-- A price cache holding the given fields of the hash `prices`. -/
def cacheOf (fields : List (String × String)) (key field : String) : Except String String :=
  if key = "prices" then
    match fields.lookup field with
    | some v => Except.ok v
    | none => Except.error "redis: nil"
  else Except.error "redis: nil"

/-- The library instances of the worked scenarios over a given cache. -/
def depsOf (fields : List (String × String)) : PriceDeps Number (PriceMessage Number) :=
  { hget := cacheOf fields, parseFloat := parseNumber, toLower := asciiLower,
    marshal := marshalPrice }

/-- A start with a well-formed command line, no `-version`, a database that
connects and an FCM client that can be created. -/
def plainStart : StartupInput :=
  { flagsParse := true, version := false, dbConnects := true, fcmClientOk := true }

/-- An environment given by the variables that are set: `utils.GetEnv` returns
the value of a set variable and the fallback otherwise. -/
def envOf (vars : List (String × String)) (key fallback : String) : String :=
  match vars.lookup key with
  | some v => v
  | none => fallback

/-- A request map given by its entries, decoded field by field; a `count`
entry is kept as the string it holds. -/
def decodeFields (request : List (String × String)) :
    Except String (BaseRequestWithCount String) :=
  Except.ok
    { Wallet := (request.lookup "wallet").getD "",
      Action := (request.lookup "action").getD "",
      Count := request.lookup "count" }

/-- A conversion of a string of decimal digits, with an optional leading minus
sign, to an integer; anything else is an error with value zero. -/
def digitsToInt (s : String) : Int × Option String :=
  match s.data with
  | '-' :: rest =>
      if rest = [] then (0, some "invalid syntax")
      else
        match readDigits rest 0 with
        | some n => (-(n : Int), none)
        | none => (0, some "invalid syntax")
  | cs =>
      if cs = [] then (0, some "invalid syntax")
      else
        match readDigits cs 0 with
        | some n => ((n : Int), none)
        | none => (0, some "invalid syntax")

/-! ## Lemmas on the recorded effects -/

theorem deliveries_append {B : Type} (ptr : Nat) (xs ys : List (Effect B)) :
    deliveries ptr (xs ++ ys) = deliveries ptr xs ++ deliveries ptr ys := by
  induction xs with
  | nil => rfl
  | cons e es ih =>
      cases e with
      | logError t => simpa [deliveries] using ih
      | sioBroadcast n ev a => simpa [deliveries] using ih
      | broadcastToClient c p =>
          by_cases h : c = ptr <;> simp [deliveries, h, ih]

theorem deliveries_notifyAccounts_self {B : Type} (client : Client) (link : String)
    (serialized : B) (accounts : List String) :
    deliveries client.ptr (notifyAccounts client link serialized accounts)
      = List.replicate (accounts.count link) serialized := by
  induction accounts with
  | nil => rfl
  | cons a rest ih =>
      by_cases h : a = link
      · subst h
        simp [notifyAccounts, deliveries, ih, List.replicate_succ]
      · have h2 : (a == link) = false := by simpa using h
        simp [notifyAccounts, h, ih, List.count_cons, h2]

theorem deliveries_notifyAccounts_other {B : Type} (client : Client) (link : String)
    (serialized : B) (accounts : List String) (ptr : Nat) (hne : client.ptr ≠ ptr) :
    deliveries ptr (notifyAccounts client link serialized accounts) = [] := by
  induction accounts with
  | nil => rfl
  | cons a rest ih =>
      by_cases h : a = link <;> simp [notifyAccounts, deliveries, h, hne, ih]

theorem deliveries_notifyClients_absent {B : Type} (link : String) (serialized : B)
    (clients : List Client) (ptr : Nat) (habs : ptr ∉ clients.map Client.ptr) :
    deliveries ptr (notifyClients link serialized clients) = [] := by
  induction clients with
  | nil => rfl
  | cons c cs ih =>
      simp only [List.map_cons, List.mem_cons, not_or] at habs
      simp [notifyClients, deliveries_append,
        deliveries_notifyAccounts_other c link serialized c.Accounts ptr (Ne.symm habs.1),
        ih habs.2]

theorem deliveries_notifyClients {B : Type} (link : String) (serialized : B)
    (clients : List Client) (c : Client) (hnodup : (clients.map Client.ptr).Nodup)
    (hc : c ∈ clients) :
    deliveries c.ptr (notifyClients link serialized clients)
      = List.replicate (c.Accounts.count link) serialized := by
  induction clients with
  | nil => simp at hc
  | cons x xs ih =>
      simp only [List.map_cons, List.nodup_cons] at hnodup
      rcases List.mem_cons.mp hc with hx | hx
      · subst hx
        simp [notifyClients, deliveries_append, deliveries_notifyAccounts_self,
          deliveries_notifyClients_absent link serialized xs c.ptr hnodup.1]
      · have hne : x.ptr ≠ c.ptr := by
          intro heq
          exact hnodup.1 (heq ▸ List.mem_map_of_mem Client.ptr hx)
        simp [notifyClients, deliveries_append,
          deliveries_notifyAccounts_other x link serialized x.Accounts c.ptr hne,
          ih hnodup.2 hx]

theorem deliveries_sioBranch {B : Type} (sio : Bool) (msg : WSCallbackMsg) (ptr : Nat) :
    deliveries ptr (sioBranch sio msg : List (Effect B)) = [] := by
  unfold sioBranch
  split
  · split <;> simp [deliveries]
  · rfl

theorem relayEvent_send_ok {B : Type} (marshal : CallbackPayload → Except String B)
    (sio : Bool) (clients : List Client) (msg : WSCallbackMsg) (serialized : B)
    (hsend : msg.Block.Subtype = "send")
    (hser : marshal (callbackMsg msg) = Except.ok serialized) :
    relayEvent marshal sio clients msg
      = notifyClients msg.Block.LinkAsAccount serialized clients ++ sioBranch sio msg := by
  simp [relayEvent, hsend, hser]

/-! ## The relay: filter, match rule, deliveries per client -/

/-- C1. An event whose subtype is not "send" makes one iteration of the relay
loop produce no effect at all: no `BroadcastToClient` for any client, whatever
the clients' accounts are, and no socket.io broadcast. -/
theorem relay_filter_non_send {B : Type} (marshal : CallbackPayload → Except String B)
    (sio : Bool) (clients : List Client) (msg : WSCallbackMsg)
    (hsub : msg.Block.Subtype ≠ "send") :
    relayEvent marshal sio clients msg = []
      ∧ (∀ ptr, deliveries ptr (relayEvent marshal sio clients msg) = [])
      ∧ donations (relayEvent marshal sio clients msg) = [] := by
  have h : relayEvent marshal sio clients msg = [] := by simp [relayEvent, hsub]
  refine ⟨h, ?_, ?_⟩
  · intro ptr
    rw [h]; rfl
  · rw [h]; rfl

/-- Witness for C1: a "receive" event whose link is the donation account, with
socket.io on and a client subscribed to that very account. -/
theorem relay_filter_non_send_witness :
    (⟨"nano_3src", "HASH1", "100", ⟨"receive", donationAccount⟩⟩ : WSCallbackMsg).Block.Subtype
        ≠ "send"
      ∧ (relayEvent marshalCallback true [⟨1, [donationAccount], "USD"⟩]
            ⟨"nano_3src", "HASH1", "100", ⟨"receive", donationAccount⟩⟩ = []
          ∧ (∀ ptr, deliveries ptr (relayEvent marshalCallback true
                [⟨1, [donationAccount], "USD"⟩]
                ⟨"nano_3src", "HASH1", "100", ⟨"receive", donationAccount⟩⟩) = [])
          ∧ donations (relayEvent marshalCallback true [⟨1, [donationAccount], "USD"⟩]
                ⟨"nano_3src", "HASH1", "100", ⟨"receive", donationAccount⟩⟩) = []) :=
  ⟨by decide, relay_filter_non_send marshalCallback true [⟨1, [donationAccount], "USD"⟩]
    ⟨"nano_3src", "HASH1", "100", ⟨"receive", donationAccount⟩⟩ (by decide)⟩

/-- C2. For a "send" event that serializes, a registered client is handed the
serialized event by `BroadcastToClient` if and only if the event's
`LinkAsAccount` is one of the client's accounts; a client none of whose
accounts equals it is handed nothing, and nothing but the serialized event is
ever handed over. -/
theorem relay_match_rule {B : Type} (marshal : CallbackPayload → Except String B)
    (sio : Bool) (clients : List Client) (msg : WSCallbackMsg) (serialized : B)
    (c : Client)
    (hsend : msg.Block.Subtype = "send")
    (hser : marshal (callbackMsg msg) = Except.ok serialized)
    (hnodup : (clients.map Client.ptr).Nodup) (hc : c ∈ clients) :
    (deliveries c.ptr (relayEvent marshal sio clients msg) ≠ []
        ↔ msg.Block.LinkAsAccount ∈ c.Accounts)
      ∧ (msg.Block.LinkAsAccount ∉ c.Accounts →
          deliveries c.ptr (relayEvent marshal sio clients msg) = [])
      ∧ (∀ p ∈ deliveries c.ptr (relayEvent marshal sio clients msg), p = serialized) := by
  have hd : deliveries c.ptr (relayEvent marshal sio clients msg)
      = List.replicate (c.Accounts.count msg.Block.LinkAsAccount) serialized := by
    rw [relayEvent_send_ok marshal sio clients msg serialized hsend hser, deliveries_append,
      deliveries_sioBranch, List.append_nil, deliveries_notifyClients _ _ _ c hnodup hc]
  rw [hd]
  refine ⟨?_, ?_, ?_⟩
  · rw [Ne, List.replicate_eq_nil_iff, ← Ne, ← Nat.pos_iff_ne_zero, List.count_pos_iff]
  · intro hnot
    rw [List.count_eq_zero_of_not_mem hnot]; rfl
  · intro p hp
    exact (List.mem_replicate.mp hp).2

/-- Witness for C2: the worked scenario, seen from the client that watches
`nano_1abc`. -/
theorem relay_match_rule_witness :
    (sendEvent.Block.Subtype = "send"
      ∧ marshalCallback (callbackMsg sendEvent) = Except.ok (callbackMsg sendEvent)
      ∧ ([clientUsd, clientEur].map Client.ptr).Nodup ∧ clientUsd ∈ [clientUsd, clientEur])
    ∧ ((deliveries clientUsd.ptr (relayEvent marshalCallback false [clientUsd, clientEur]
            sendEvent) ≠ [] ↔ sendEvent.Block.LinkAsAccount ∈ clientUsd.Accounts)
      ∧ (sendEvent.Block.LinkAsAccount ∉ clientUsd.Accounts →
          deliveries clientUsd.ptr (relayEvent marshalCallback false [clientUsd, clientEur]
            sendEvent) = [])
      ∧ (∀ p ∈ deliveries clientUsd.ptr (relayEvent marshalCallback false
            [clientUsd, clientEur] sendEvent), p = callbackMsg sendEvent)) :=
  ⟨⟨by decide, rfl, by decide, by decide⟩,
    relay_match_rule marshalCallback false [clientUsd, clientEur] sendEvent
      (callbackMsg sendEvent) clientUsd (by decide) rfl (by decide) (by decide)⟩

/-- Counterexample to C3 as stated: a registered client whose `Accounts` holds
the link account twice is handed the same "send" event twice. -/
theorem relay_exactly_once_counterexample :
    sendEvent.Block.Subtype = "send"
      ∧ marshalCallback (callbackMsg sendEvent) = Except.ok (callbackMsg sendEvent)
      ∧ ([clientTwice].map Client.ptr).Nodup
      ∧ clientTwice ∈ [clientTwice]
      ∧ sendEvent.Block.LinkAsAccount ∈ clientTwice.Accounts
      ∧ deliveries clientTwice.ptr (relayEvent marshalCallback false [clientTwice] sendEvent)
          = [callbackMsg sendEvent, callbackMsg sendEvent]
      ∧ (deliveries clientTwice.ptr
            (relayEvent marshalCallback false [clientTwice] sendEvent)).length ≠ 1 := by
  refine ⟨by decide, rfl, by decide, by decide, by decide, ?_, ?_⟩ <;> decide

/-- C3, amended. For a "send" event that serializes and a registered client,
the relay calls `BroadcastToClient` for that client once per occurrence of the
event's `LinkAsAccount` in the client's `Accounts`, always with the serialized
event; so exactly once when the account occurs exactly once, in particular
when `Accounts` has no duplicates and contains it. -/
theorem relay_deliveries_per_occurrence {B : Type}
    (marshal : CallbackPayload → Except String B)
    (sio : Bool) (clients : List Client) (msg : WSCallbackMsg) (serialized : B)
    (c : Client)
    (hsend : msg.Block.Subtype = "send")
    (hser : marshal (callbackMsg msg) = Except.ok serialized)
    (hnodup : (clients.map Client.ptr).Nodup) (hc : c ∈ clients) :
    deliveries c.ptr (relayEvent marshal sio clients msg)
        = List.replicate (c.Accounts.count msg.Block.LinkAsAccount) serialized
      ∧ (c.Accounts.count msg.Block.LinkAsAccount = 1 →
          deliveries c.ptr (relayEvent marshal sio clients msg) = [serialized])
      ∧ (c.Accounts.Nodup → msg.Block.LinkAsAccount ∈ c.Accounts →
          deliveries c.ptr (relayEvent marshal sio clients msg) = [serialized]) := by
  have hd : deliveries c.ptr (relayEvent marshal sio clients msg)
      = List.replicate (c.Accounts.count msg.Block.LinkAsAccount) serialized := by
    rw [relayEvent_send_ok marshal sio clients msg serialized hsend hser, deliveries_append,
      deliveries_sioBranch, List.append_nil, deliveries_notifyClients _ _ _ c hnodup hc]
  refine ⟨hd, ?_, ?_⟩
  · intro h1
    rw [hd, h1]; rfl
  · intro hnd hmem
    rw [hd, List.count_eq_one_of_mem hnd hmem]; rfl

/-- Witness for C3, amended: the worked scenario; the client that watches
`nano_1abc` is handed the event exactly once. -/
theorem relay_deliveries_per_occurrence_witness :
    (sendEvent.Block.Subtype = "send"
      ∧ marshalCallback (callbackMsg sendEvent) = Except.ok (callbackMsg sendEvent)
      ∧ ([clientEur, clientUsd].map Client.ptr).Nodup ∧ clientUsd ∈ [clientEur, clientUsd])
    ∧ deliveries clientUsd.ptr (relayEvent marshalCallback true [clientEur, clientUsd]
          sendEvent) = [callbackMsg sendEvent] :=
  ⟨⟨by decide, rfl, by decide, by decide⟩,
    (relay_deliveries_per_occurrence marshalCallback true [clientEur, clientUsd] sendEvent
      (callbackMsg sendEvent) clientUsd (by decide) rfl (by decide) (by decide)).2.1
      (by decide)⟩

/-! ## The relay: socket.io donation branch -/

theorem priceClients_cons {F B : Type} (d : PriceDeps F B) (bananoMode : Bool) (b n : F)
    (c : Client) (rest : List Client) :
    priceClients d bananoMode b n (c :: rest)
      = priceClients d bananoMode b n [c] ++ priceClients d bananoMode b n rest := by
  simp only [priceClients]
  split
  · rfl
  · split
    · rfl
    · split <;> rfl

theorem deliveries_priceClients_single_other {F B : Type} (d : PriceDeps F B)
    (bananoMode : Bool) (b n : F) (c : Client) (ptr : Nat) (hne : c.ptr ≠ ptr) :
    deliveries ptr (priceClients d bananoMode b n [c]) = [] := by
  simp only [priceClients]
  split
  · rfl
  · split
    · rfl
    · split
      · rfl
      · simp [deliveries, hne]

theorem deliveries_priceClients_absent {F B : Type} (d : PriceDeps F B)
    (bananoMode : Bool) (b n : F) (clients : List Client) (ptr : Nat)
    (habs : ptr ∉ clients.map Client.ptr) :
    deliveries ptr (priceClients d bananoMode b n clients) = [] := by
  induction clients with
  | nil => rfl
  | cons c cs ih =>
      simp only [List.map_cons, List.mem_cons, not_or] at habs
      rw [priceClients_cons, deliveries_append,
        deliveries_priceClients_single_other d bananoMode b n c ptr (Ne.symm habs.1),
        ih habs.2]
      rfl

theorem deliveries_priceClients_mem {F B : Type} (d : PriceDeps F B)
    (bananoMode : Bool) (b n : F) (clients : List Client) (c : Client)
    (hnodup : (clients.map Client.ptr).Nodup) (hc : c ∈ clients) :
    deliveries c.ptr (priceClients d bananoMode b n clients)
      = deliveries c.ptr (priceClients d bananoMode b n [c]) := by
  induction clients with
  | nil => simp at hc
  | cons x xs ih =>
      simp only [List.map_cons, List.nodup_cons] at hnodup
      rw [priceClients_cons, deliveries_append]
      rcases List.mem_cons.mp hc with hx | hx
      · subst hx
        rw [deliveries_priceClients_absent d bananoMode b n xs c.ptr hnodup.1,
          List.append_nil]
      · have hne : x.ptr ≠ c.ptr := by
          intro heq
          exact hnodup.1 (heq ▸ List.mem_map_of_mem Client.ptr hx)
        rw [deliveries_priceClients_single_other d bananoMode b n x c.ptr hne,
          ih hnodup.2 hx]
        rfl

theorem priceJob_reaches_loop {F B : Type} (d : PriceDeps F B) (zero : F)
    (bananoMode : Bool) (clients : List Client) (s : String) (b : F)
    (hbase : d.hget "prices" (priceKey bananoMode "btc") = Except.ok s)
    (hparse : d.parseFloat s = (b, none))
    (hnano : bananoMode = true →
      ∃ ns, d.hget "prices" (priceKey bananoMode "nano") = Except.ok ns) :
    ∃ n : F, priceJob d zero bananoMode clients = priceClients d bananoMode b n clients
      ∧ ∀ ns, bananoMode = true →
          d.hget "prices" (priceKey bananoMode "nano") = Except.ok ns →
          n = (d.parseFloat ns).1 := by
  cases bananoMode with
  | false => exact ⟨zero, by simp [priceJob, hbase, hparse], by simp⟩
  | true =>
      obtain ⟨ns, hns⟩ := hnano rfl
      refine ⟨(d.parseFloat ns).1, by simp [priceJob, hbase, hparse, hns], ?_⟩
      intro ns2 _ h2
      rw [hns] at h2
      cases h2
      rfl

theorem deliveries_priceClients_single_ok {F B : Type} (d : PriceDeps F B)
    (bananoMode : Bool) (b n : F) (c : Client) (cs : String) (p : F) (payload : B)
    (hget : d.hget "prices" (priceKey bananoMode (d.toLower c.Currency)) = Except.ok cs)
    (hparse : d.parseFloat cs = (p, none))
    (hser : d.marshal
        { Currency := c.Currency, Price := p, BtcPrice := b,
          NanoPrice := if bananoMode then some n else none } = Except.ok payload) :
    deliveries c.ptr (priceClients d bananoMode b n [c]) = [payload] := by
  simp [priceClients, hget, hparse, hser, deliveries]

theorem deliveries_priceClients_single_unserialized {F B : Type} (d : PriceDeps F B)
    (bananoMode : Bool) (b n : F) (c : Client) (cs : String) (p : F) (err : String)
    (hget : d.hget "prices" (priceKey bananoMode (d.toLower c.Currency)) = Except.ok cs)
    (hparse : d.parseFloat cs = (p, none))
    (hser : d.marshal
        { Currency := c.Currency, Price := p, BtcPrice := b,
          NanoPrice := if bananoMode then some n else none } = Except.error err) :
    deliveries c.ptr (priceClients d bananoMode b n [c]) = [] := by
  simp [priceClients, hget, hparse, hser, deliveries]

theorem deliveries_priceClients_single_failed {F B : Type} (d : PriceDeps F B)
    (bananoMode : Bool) (b n : F) (c : Client)
    (hfail : (∃ err, d.hget "prices" (priceKey bananoMode (d.toLower c.Currency))
          = Except.error err)
      ∨ ∃ cs err, d.hget "prices" (priceKey bananoMode (d.toLower c.Currency)) = Except.ok cs
          ∧ (d.parseFloat cs).2 = some err) :
    deliveries c.ptr (priceClients d bananoMode b n [c]) = [] := by
  rcases hfail with ⟨err, he⟩ | ⟨cs, err, hg, hp⟩
  · simp [priceClients, he, deliveries]
  · cases hpf : d.parseFloat cs with
    | mk v e =>
        rw [hpf] at hp
        simp only at hp
        subst hp
        simp [priceClients, hg, hpf, deliveries]

/-! ## The price job: abort on a base-price failure -/

/-- C4. If reading the base asset's BTC price (field `coingecko:<prefix>-btc`
of the hash `prices`) fails, or the string read does not parse, one run of the
job calls `BroadcastToClient` for no client, in either operating mode and for
any set of clients. -/
theorem price_cycle_aborts_on_base_failure {F B : Type} (d : PriceDeps F B) (zero : F)
    (bananoMode : Bool) (clients : List Client)
    (hfail : (∃ err, d.hget "prices" (priceKey bananoMode "btc") = Except.error err)
      ∨ ∃ s err, d.hget "prices" (priceKey bananoMode "btc") = Except.ok s
          ∧ (d.parseFloat s).2 = some err) :
    (priceJob d zero bananoMode clients).filter Effect.isBroadcast = []
      ∧ ∀ ptr, deliveries ptr (priceJob d zero bananoMode clients) = [] := by
  rcases hfail with ⟨err, he⟩ | ⟨s, err, hg, hp⟩
  · simp [priceJob, he, Effect.isBroadcast, deliveries]
  · cases hpf : d.parseFloat s with
    | mk v e =>
        rw [hpf] at hp
        simp only at hp
        subst hp
        simp [priceJob, hg, hpf, Effect.isBroadcast, deliveries]

/-- Witness for C4: the cache holds a USD price but no base price. -/
theorem price_cycle_aborts_on_base_failure_witness :
    ((∃ err, (depsOf [("coingecko:nano-usd", "1.02")]).hget "prices" (priceKey false "btc")
          = Except.error err)
      ∨ ∃ s err, (depsOf [("coingecko:nano-usd", "1.02")]).hget "prices"
            (priceKey false "btc") = Except.ok s
          ∧ ((depsOf [("coingecko:nano-usd", "1.02")]).parseFloat s).2 = some err)
    ∧ ((priceJob (depsOf [("coingecko:nano-usd", "1.02")]) (Number.dec ⟨0, 0⟩) false
            [clientUsd, clientEur]).filter Effect.isBroadcast = []
      ∧ ∀ ptr, deliveries ptr (priceJob (depsOf [("coingecko:nano-usd", "1.02")])
            (Number.dec ⟨0, 0⟩) false [clientUsd, clientEur]) = []) :=
  ⟨Or.inl ⟨"redis: nil", rfl⟩,
    price_cycle_aborts_on_base_failure (depsOf [("coingecko:nano-usd", "1.02")])
      (Number.dec ⟨0, 0⟩) false [clientUsd, clientEur] (Or.inl ⟨"redis: nil", rfl⟩)⟩

/-! ## The price job: one client's failure and the others -/

/-- Counterexample to C5 as stated.  First run: banano mode, the base price
and the client's USD price are in the cache and parse, the `banano-nano` price
is not in the cache; the job returns before the loop and the client is handed
nothing.  Second run: the client's price reads "NaN", which parses, and the
message does not serialize; the client is handed nothing. -/
theorem price_isolation_counterexample :
    ((depsOf [("coingecko:banano-btc", "0.00000012"), ("coingecko:banano-usd", "0.005")]).hget
          "prices" (priceKey true "btc") = Except.ok "0.00000012"
      ∧ parseNumber "0.00000012" = (Number.dec ⟨12, 8⟩, none)
      ∧ (depsOf [("coingecko:banano-btc", "0.00000012"), ("coingecko:banano-usd", "0.005")]).hget
          "prices" (priceKey true (asciiLower clientUsd.Currency)) = Except.ok "0.005"
      ∧ parseNumber "0.005" = (Number.dec ⟨5, 3⟩, none)
      ∧ deliveries clientUsd.ptr
          (priceJob (depsOf [("coingecko:banano-btc", "0.00000012"),
              ("coingecko:banano-usd", "0.005")]) (Number.dec ⟨0, 0⟩) true [clientUsd]) = [])
    ∧ ((depsOf [("coingecko:nano-btc", "50000.5"), ("coingecko:nano-usd", "NaN")]).hget
          "prices" (priceKey false "btc") = Except.ok "50000.5"
      ∧ parseNumber "50000.5" = (Number.dec ⟨500005, 1⟩, none)
      ∧ (depsOf [("coingecko:nano-btc", "50000.5"), ("coingecko:nano-usd", "NaN")]).hget
          "prices" (priceKey false (asciiLower clientUsd.Currency)) = Except.ok "NaN"
      ∧ parseNumber "NaN" = (Number.nan, none)
      ∧ deliveries clientUsd.ptr
          (priceJob (depsOf [("coingecko:nano-btc", "50000.5"), ("coingecko:nano-usd", "NaN")])
            (Number.dec ⟨0, 0⟩) false [clientUsd]) = []) := by
  refine ⟨⟨rfl, ?_, rfl, ?_, ?_⟩, ⟨rfl, ?_, rfl, ?_, ?_⟩⟩ <;> decide

/-- C5, amended. In a run where the base price is read and parses and, in
banano mode, the nano price is read, a client whose own currency is read and
parses is handed exactly one payload, the serialization of a message with its
currency, its price and the base price, provided that message serializes (and
nothing if it does not); a client whose currency read or parse fails is handed
nothing.  Both hold whatever the other clients in the set are. -/
theorem price_cycle_client_isolation {F B : Type} (d : PriceDeps F B) (zero : F)
    (bananoMode : Bool) (clients : List Client) (s : String) (b : F)
    (hbase : d.hget "prices" (priceKey bananoMode "btc") = Except.ok s)
    (hparse : d.parseFloat s = (b, none))
    (hnano : bananoMode = true →
      ∃ ns, d.hget "prices" (priceKey bananoMode "nano") = Except.ok ns)
    (hnodup : (clients.map Client.ptr).Nodup) :
    (∀ y ∈ clients, ∀ ys p,
        d.hget "prices" (priceKey bananoMode (d.toLower y.Currency)) = Except.ok ys →
        d.parseFloat ys = (p, none) →
        ∃ m : PriceMessage F, m.Currency = y.Currency ∧ m.Price = p ∧ m.BtcPrice = b
          ∧ (∀ payload, d.marshal m = Except.ok payload →
              deliveries y.ptr (priceJob d zero bananoMode clients) = [payload])
          ∧ (∀ err, d.marshal m = Except.error err →
              deliveries y.ptr (priceJob d zero bananoMode clients) = []))
      ∧ (∀ x ∈ clients,
          ((∃ err, d.hget "prices" (priceKey bananoMode (d.toLower x.Currency))
                = Except.error err)
            ∨ ∃ xs err, d.hget "prices" (priceKey bananoMode (d.toLower x.Currency))
                  = Except.ok xs ∧ (d.parseFloat xs).2 = some err) →
          deliveries x.ptr (priceJob d zero bananoMode clients) = []) := by
  obtain ⟨n, hjob, _⟩ := priceJob_reaches_loop d zero bananoMode clients s b hbase hparse hnano
  rw [hjob]
  refine ⟨?_, ?_⟩
  · intro y hy ys p hg hp
    refine ⟨{ Currency := y.Currency, Price := p, BtcPrice := b,
              NanoPrice := if bananoMode then some n else none }, rfl, rfl, rfl, ?_, ?_⟩
    · intro payload hser
      rw [deliveries_priceClients_mem d bananoMode b n clients y hnodup hy]
      exact deliveries_priceClients_single_ok d bananoMode b n y ys p payload hg hp hser
    · intro err hser
      rw [deliveries_priceClients_mem d bananoMode b n clients y hnodup hy]
      exact deliveries_priceClients_single_unserialized d bananoMode b n y ys p err hg hp hser
  · intro x hx hfail
    rw [deliveries_priceClients_mem d bananoMode b n clients x hnodup hx]
    exact deliveries_priceClients_single_failed d bananoMode b n x hfail

/-- Witness for C5, amended: the base price and the USD price are cached, the
EUR price is not; the EUR client, visited first, is handed nothing and the USD
client is handed its message. -/
theorem price_cycle_client_isolation_witness :
    ((depsOf [("coingecko:nano-btc", "50000.5"), ("coingecko:nano-usd", "1.02")]).hget
          "prices" (priceKey false "btc") = Except.ok "50000.5"
      ∧ (depsOf [("coingecko:nano-btc", "50000.5"), ("coingecko:nano-usd", "1.02")]).parseFloat
          "50000.5" = (Number.dec ⟨500005, 1⟩, none)
      ∧ ([clientEur, clientUsd].map Client.ptr).Nodup)
    ∧ deliveries clientEur.ptr
        (priceJob (depsOf [("coingecko:nano-btc", "50000.5"), ("coingecko:nano-usd", "1.02")])
          (Number.dec ⟨0, 0⟩) false [clientEur, clientUsd]) = []
    ∧ deliveries clientUsd.ptr
        (priceJob (depsOf [("coingecko:nano-btc", "50000.5"), ("coingecko:nano-usd", "1.02")])
          (Number.dec ⟨0, 0⟩) false [clientEur, clientUsd])
        = [⟨"USD", Number.dec ⟨102, 2⟩, Number.dec ⟨500005, 1⟩, none⟩] :=
  ⟨⟨rfl, by decide, by decide⟩,
    (price_cycle_client_isolation
      (depsOf [("coingecko:nano-btc", "50000.5"), ("coingecko:nano-usd", "1.02")])
      (Number.dec ⟨0, 0⟩) false [clientEur, clientUsd] "50000.5" (Number.dec ⟨500005, 1⟩)
      rfl (by decide) (by simp) (by decide)).2 clientEur (by decide)
      (Or.inl ⟨"redis: nil", rfl⟩),
    by decide⟩

/-! ## The price job: content of the message -/

/-- Counterexample to C7 as stated.  In each run the base price parses and the
cache value under `coingecko:<prefix>-<c>`, for the client's currency `c`,
parses, yet the client is sent nothing: (1) the price is cached under the
currency as the client spells it, `USD`, while the job looks up the lower-cased
`usd`; (2) banano mode, and the `banano-nano` price is not cached, so the job
returns before the loop; (3) the price reads "NaN", which parses but does not
serialize. -/
theorem price_message_counterexample :
    ((depsOf [("coingecko:nano-btc", "50000.5"), ("coingecko:nano-USD", "1.02")]).hget
          "prices" (priceKey false "btc") = Except.ok "50000.5"
      ∧ parseNumber "50000.5" = (Number.dec ⟨500005, 1⟩, none)
      ∧ (depsOf [("coingecko:nano-btc", "50000.5"), ("coingecko:nano-USD", "1.02")]).hget
          "prices" (priceKey false clientUsd.Currency) = Except.ok "1.02"
      ∧ parseNumber "1.02" = (Number.dec ⟨102, 2⟩, none)
      ∧ deliveries clientUsd.ptr
          (priceJob (depsOf [("coingecko:nano-btc", "50000.5"), ("coingecko:nano-USD", "1.02")])
            (Number.dec ⟨0, 0⟩) false [clientUsd]) = [])
    ∧ ((depsOf [("coingecko:banano-btc", "0.00000012"), ("coingecko:banano-usd", "0.005")]).hget
          "prices" (priceKey true "btc") = Except.ok "0.00000012"
      ∧ parseNumber "0.00000012" = (Number.dec ⟨12, 8⟩, none)
      ∧ (depsOf [("coingecko:banano-btc", "0.00000012"), ("coingecko:banano-usd", "0.005")]).hget
          "prices" (priceKey true "usd") = Except.ok "0.005"
      ∧ parseNumber "0.005" = (Number.dec ⟨5, 3⟩, none)
      ∧ deliveries 7
          (priceJob (depsOf [("coingecko:banano-btc", "0.00000012"),
              ("coingecko:banano-usd", "0.005")]) (Number.dec ⟨0, 0⟩) true [⟨7, [], "usd"⟩]) = [])
    ∧ ((depsOf [("coingecko:nano-btc", "50000.5"), ("coingecko:nano-usd", "NaN")]).hget
          "prices" (priceKey false "usd") = Except.ok "NaN"
      ∧ parseNumber "NaN" = (Number.nan, none)
      ∧ deliveries 7
          (priceJob (depsOf [("coingecko:nano-btc", "50000.5"), ("coingecko:nano-usd", "NaN")])
            (Number.dec ⟨0, 0⟩) false [⟨7, [], "usd"⟩]) = []) := by
  refine ⟨⟨rfl, ?_, rfl, ?_, ?_⟩, ⟨rfl, ?_, rfl, ?_, ?_⟩, ⟨rfl, ?_, ?_⟩⟩ <;> decide

/-- C7, amended. In a run where the base price parses to `b` and, in banano
mode, the nano price is read, a client whose currency `c` resolves, meaning
that the cache value under `coingecko:<prefix>-<lower-cased c>` parses to `p`,
is sent exactly one payload, the serialization of the message with currency
`c` as the client spells it, price `p` and base price `b`, whose nano price is
present exactly in banano mode (and is then the value parsed from the nano
price read), provided that message serializes; if it does not, the client is
sent nothing. -/
theorem price_message_content {F B : Type} (d : PriceDeps F B) (zero : F)
    (bananoMode : Bool) (clients : List Client) (s : String) (b : F) (c : Client)
    (cs : String) (p : F)
    (hbase : d.hget "prices" (priceKey bananoMode "btc") = Except.ok s)
    (hparse : d.parseFloat s = (b, none))
    (hnano : bananoMode = true →
      ∃ ns, d.hget "prices" (priceKey bananoMode "nano") = Except.ok ns)
    (hnodup : (clients.map Client.ptr).Nodup) (hc : c ∈ clients)
    (hcur : d.hget "prices" (priceKey bananoMode (d.toLower c.Currency)) = Except.ok cs)
    (hcparse : d.parseFloat cs = (p, none)) :
    ∃ m : PriceMessage F, m.Currency = c.Currency ∧ m.Price = p ∧ m.BtcPrice = b
      ∧ (m.NanoPrice.isSome = true ↔ bananoMode = true)
      ∧ (∀ ns, bananoMode = true →
          d.hget "prices" (priceKey bananoMode "nano") = Except.ok ns →
          m.NanoPrice = some (d.parseFloat ns).1)
      ∧ (∀ payload, d.marshal m = Except.ok payload →
          deliveries c.ptr (priceJob d zero bananoMode clients) = [payload])
      ∧ (∀ err, d.marshal m = Except.error err →
          deliveries c.ptr (priceJob d zero bananoMode clients) = []) := by
  obtain ⟨n, hjob, hn⟩ :=
    priceJob_reaches_loop d zero bananoMode clients s b hbase hparse hnano
  rw [hjob, deliveries_priceClients_mem d bananoMode b n clients c hnodup hc]
  refine ⟨{ Currency := c.Currency, Price := p, BtcPrice := b,
            NanoPrice := if bananoMode then some n else none }, rfl, rfl, rfl, ?_, ?_, ?_, ?_⟩
  · cases bananoMode <;> simp
  · intro ns hb hns
    rw [← hn ns hb hns]
    simp [hb]
  · intro payload hser
    exact deliveries_priceClients_single_ok d bananoMode b n c cs p payload hcur hcparse hser
  · intro err hser
    exact deliveries_priceClients_single_unserialized d bananoMode b n c cs p err hcur
      hcparse hser

/-- Witness for C7, amended: base price "50000.5", USD price "1.02", no EUR
price; the USD client is sent one message with price 1.02 and base price
50000.5 and without a nano price, the EUR client none. -/
theorem price_message_content_witness :
    ((depsOf [("coingecko:nano-btc", "50000.5"), ("coingecko:nano-usd", "1.02")]).hget
          "prices" (priceKey false "btc") = Except.ok "50000.5"
      ∧ parseNumber "50000.5" = (Number.dec ⟨500005, 1⟩, none)
      ∧ ([clientUsd, clientEur].map Client.ptr).Nodup
      ∧ clientUsd ∈ [clientUsd, clientEur]
      ∧ (depsOf [("coingecko:nano-btc", "50000.5"), ("coingecko:nano-usd", "1.02")]).hget
          "prices" (priceKey false (asciiLower clientUsd.Currency)) = Except.ok "1.02"
      ∧ parseNumber "1.02" = (Number.dec ⟨102, 2⟩, none))
    ∧ (∃ m : PriceMessage Number, m.Currency = "USD" ∧ m.Price = Number.dec ⟨102, 2⟩
        ∧ m.BtcPrice = Number.dec ⟨500005, 1⟩
        ∧ (m.NanoPrice.isSome = true ↔ false = true)
        ∧ (∀ payload, marshalPrice m = Except.ok payload →
            deliveries clientUsd.ptr
              (priceJob (depsOf [("coingecko:nano-btc", "50000.5"),
                  ("coingecko:nano-usd", "1.02")]) (Number.dec ⟨0, 0⟩) false
                [clientUsd, clientEur]) = [payload]))
    ∧ deliveries clientUsd.ptr
        (priceJob (depsOf [("coingecko:nano-btc", "50000.5"), ("coingecko:nano-usd", "1.02")])
          (Number.dec ⟨0, 0⟩) false [clientUsd, clientEur])
        = [⟨"USD", Number.dec ⟨102, 2⟩, Number.dec ⟨500005, 1⟩, none⟩]
    ∧ deliveries clientEur.ptr
        (priceJob (depsOf [("coingecko:nano-btc", "50000.5"), ("coingecko:nano-usd", "1.02")])
          (Number.dec ⟨0, 0⟩) false [clientUsd, clientEur]) = [] := by
  refine ⟨⟨rfl, by decide, by decide, by decide, rfl, by decide⟩, ?_, by decide, by decide⟩
  obtain ⟨m, h1, h2, h3, h4, _, h6, _⟩ :=
    price_message_content
      (depsOf [("coingecko:nano-btc", "50000.5"), ("coingecko:nano-usd", "1.02")])
      (Number.dec ⟨0, 0⟩) false [clientUsd, clientEur] "50000.5" (Number.dec ⟨500005, 1⟩)
      clientUsd "1.02" (Number.dec ⟨102, 2⟩) rfl (by decide) (by simp) (by decide)
      (by decide) rfl (by decide)
  exact ⟨m, h1, h2, h3, h4, h6⟩

/-! ## Startup configuration -/

/-- Counterexample to C9 as stated: with a well-formed command line, a work
URL configured and `NODE_WS_URL` unset, startup reaches the serving state,
without the node websocket client, and does not end fatally. -/
theorem startup_counterexample :
    envOf [("WORK_URL", "http://localhost:5555")] "NODE_WS_URL" "" = ""
      ∧ startup (envOf [("WORK_URL", "http://localhost:5555")]) plainStart
          = StartupOutcome.serving none
      ∧ (startup (envOf [("WORK_URL", "http://localhost:5555")]) plainStart).isFatal = false
      ∧ (startup (envOf [("WORK_URL", "http://localhost:5555")]) plainStart).isServing
          = true := by
  refine ⟨?_, ?_, ?_, ?_⟩ <;> decide

/-- C9, amended. When neither `WORK_URL` nor `BPOW_KEY` is set, startup never
reaches the serving state, and it ends fatally unless the command line parsed
and only the version was asked for; it panics at the work-generation check
once the command line parsed, the version was not asked for and the database
connected.  Whenever startup reaches the serving state, one of the two is set.
An empty `NODE_WS_URL` is not fatal: once the command line parsed, the version
was not asked for, the database connected, a work credential is set and the
FCM client (if configured) was created, the server serves, with the node
websocket client started exactly when `NODE_WS_URL` is non-empty. -/
theorem startup_work_credential_required (getEnv : String → String → String)
    (inp : StartupInput) :
    (getEnv "WORK_URL" "" = "" ∧ getEnv "BPOW_KEY" "" = "" →
        (startup getEnv inp).isServing = false
          ∧ ((startup getEnv inp).isFatal = false →
              inp.flagsParse = true ∧ inp.version = true)
          ∧ (inp.flagsParse = true → inp.version = false → inp.dbConnects = true →
              startup getEnv inp = StartupOutcome.panicText
                "Either WORK_URL or BPOW_KEY must be set for work generation"))
      ∧ ((startup getEnv inp).isServing = true →
          getEnv "WORK_URL" "" ≠ "" ∨ getEnv "BPOW_KEY" "" ≠ "")
      ∧ (inp.flagsParse = true → inp.version = false → inp.dbConnects = true →
          (getEnv "WORK_URL" "" ≠ "" ∨ getEnv "BPOW_KEY" "" ≠ "") →
          (getEnv "FCM_API_KEY" "" = "" ∨ inp.fcmClientOk = true) →
          startup getEnv inp = StartupOutcome.serving
            (if getEnv "NODE_WS_URL" "" ≠ "" then some (getEnv "NODE_WS_URL" "") else none)) := by
  obtain ⟨fl, v, db, fcm⟩ := inp
  refine ⟨?_, ?_, ?_⟩
  · rintro ⟨hw, hb⟩
    cases fl <;> cases v <;> cases db <;>
      simp [startup, hw, hb, StartupOutcome.isServing, StartupOutcome.isFatal]
  · intro hs
    by_contra hcon
    simp only [not_or, not_not] at hcon
    cases fl <;> cases v <;> cases db <;>
      simp [startup, hcon.1, hcon.2, StartupOutcome.isServing] at hs
  · intro hfl hv hdb hwork hfcm
    simp only at hfl hv hdb
    subst hfl hv hdb
    have hw : ¬ (getEnv "WORK_URL" "" = "" ∧ getEnv "BPOW_KEY" "" = "") := by
      rintro ⟨h1, h2⟩
      rcases hwork with h | h
      · exact h h1
      · exact h h2
    rcases hfcm with hf | hf
    · simp [startup, hw, hf]
    · simp only at hf
      subst hf
      simp [startup, hw]

/-- Witness for C9, amended: no variable is set, the command line parses and
the database connects; the startup panics at the work-generation check. -/
theorem startup_work_credential_required_witness :
    (envOf [] "WORK_URL" "" = "" ∧ envOf [] "BPOW_KEY" "" = "")
      ∧ (startup (envOf []) plainStart).isServing = false
      ∧ (startup (envOf []) plainStart).isFatal = true
      ∧ startup (envOf []) plainStart = StartupOutcome.panicText
          "Either WORK_URL or BPOW_KEY must be set for work generation" :=
  ⟨⟨rfl, rfl⟩,
    ((startup_work_credential_required (envOf []) plainStart).1 ⟨rfl, rfl⟩).1,
    by decide,
    ((startup_work_credential_required (envOf []) plainStart).1 ⟨rfl, rfl⟩).2.2 rfl rfl rfl⟩

/-! ## `DecodeBaseRequestWithCount` -/

/-- C10. For a request map that decodes to `b`, the decoder returns a request
exactly when `Wallet` and `Action` are non-empty and `Count` is absent or
converts without error to an integer that is at least 1; the request returned
is `b`, the count returned is 0 when `Count` is absent and otherwise the
converted value itself, which is at least 1 (so the later `count < 1`
adjustment never changes it); whenever no request is returned the count is 0. -/
theorem decode_with_count_validation {R K : Type}
    (decode : R → Except String (BaseRequestWithCount K))
    (toInt : K → Int × Option String) (request : R) (b : BaseRequestWithCount K)
    (hdec : decode request = Except.ok b) :
    ((DecodeBaseRequestWithCount decode toInt request).request ≠ none
        ↔ b.Wallet ≠ "" ∧ b.Action ≠ ""
            ∧ (b.Count = none
                ∨ ∃ c, b.Count = some c ∧ (toInt c).2 = none ∧ 1 ≤ (toInt c).1))
      ∧ ((DecodeBaseRequestWithCount decode toInt request).request ≠ none →
          (DecodeBaseRequestWithCount decode toInt request).request = some b
            ∧ (b.Count = none → (DecodeBaseRequestWithCount decode toInt request).count = 0)
            ∧ (∀ c, b.Count = some c →
                (DecodeBaseRequestWithCount decode toInt request).count = (toInt c).1
                  ∧ 1 ≤ (DecodeBaseRequestWithCount decode toInt request).count
                  ∧ ¬ (toInt c).1 < 1))
      ∧ ((DecodeBaseRequestWithCount decode toInt request).request = none →
          (DecodeBaseRequestWithCount decode toInt request).count = 0) := by
  obtain ⟨w, a, cnt⟩ := b
  by_cases hw : w = ""
  · simp [DecodeBaseRequestWithCount, hdec, hw]
  · by_cases ha : a = ""
    · simp [DecodeBaseRequestWithCount, hdec, ha]
    · cases cnt with
      | none => simp [DecodeBaseRequestWithCount, hdec, hw, ha]
      | some c =>
          cases hti : toInt c with
          | mk n e =>
              cases e with
              | some err => simp [DecodeBaseRequestWithCount, hdec, hw, ha, hti]
              | none =>
                  by_cases hn : n < 1
                  · have hn2 : ¬ 1 ≤ n := by omega
                    simp [DecodeBaseRequestWithCount, hdec, hw, ha, hti, hn, hn2]
                  · have hn2 : 1 ≤ n := by omega
                    simp [DecodeBaseRequestWithCount, hdec, hw, ha, hti, hn, hn2]

/-- Witness for C10: a request with wallet, action and `count` "3" is returned
with count 3. -/
theorem decode_with_count_validation_witness :
    decodeFields [("wallet", "w1"), ("action", "account_list"), ("count", "3")]
        = Except.ok ⟨"w1", "account_list", some "3"⟩
      ∧ (DecodeBaseRequestWithCount decodeFields digitsToInt
            [("wallet", "w1"), ("action", "account_list"), ("count", "3")]).request
          = some ⟨"w1", "account_list", some "3"⟩
      ∧ (DecodeBaseRequestWithCount decodeFields digitsToInt
            [("wallet", "w1"), ("action", "account_list"), ("count", "3")]).count = 3 := by
  have h := decode_with_count_validation decodeFields digitsToInt
    [("wallet", "w1"), ("action", "account_list"), ("count", "3")]
    ⟨"w1", "account_list", some "3"⟩ rfl
  have hsome : (DecodeBaseRequestWithCount decodeFields digitsToInt
      [("wallet", "w1"), ("action", "account_list"), ("count", "3")]).request ≠ none :=
    h.1.mpr ⟨by decide, by decide, Or.inr ⟨"3", rfl, by decide, by decide⟩⟩
  refine ⟨rfl, (h.2.1 hsome).1, ?_⟩
  rw [((h.2.1 hsome).2.2 "3" rfl).1]
  decide

end Pippin
